import Mathlib

/-!
Shallow embedding of `src/whale_detector.py` (Polymarket whale detector bot).

Python floats are modelled as exact rationals (`ℚ`), Python ints as `Int`/`Nat`,
Python strings as `String`, and absent dictionary keys as `Option`.  The Market
Data Gateway (network REST calls) is modelled as an oracle record holding the
responses the gateway would give for the wallet/market of the event being
processed; a per-event trace of gateway lookups is threaded through the
embedding so that "no gateway call happens" claims are expressible.  The
wallet cache is modelled in its cold-start state (every lookup goes to the
gateway), which is the state every claim here is about.
-/

/-- Python truthiness of `a or b` for two optional strings
(`None` and `""` are falsy). -/
def pyOrOpt (a b : Option String) : Option String :=
  match a with
  | some s => if s = "" then b else some s
  | none => b

/-- Python `a or b` where the right operand has already been defaulted
to a plain string (e.g. `d.get("k") or d.get("k2", "")`). -/
def pyOrS (a : Option String) (b : String) : String :=
  match a with
  | some s => if s = "" then b else s
  | none => b

/-- Python `round(x, n)`: rounding to `n` decimal digits, modelled on `ℚ`
with `round` (ties differ from Python banker's rounding only at exact
half-way points, which no claim here depends on). -/
def pyRound (n : Nat) (x : ℚ) : ℚ :=
  ((round (x * (10 : ℚ) ^ n) : ℤ) : ℚ) / (10 : ℚ) ^ n

/-- Configuration constants of `whale_detector.py` (lines 40–45), as read from
the environment at startup. -/
structure Config where
  MIN_TRADE_AMOUNT : ℚ
  MAX_ACCOUNT_AGE_DAYS : Int
  MIN_CONCENTRATION : ℚ
  MAX_MARKETS_TRADED : Int
  MIN_TRADES_ON_MARKET : Nat
  MIN_TOTAL_AMOUNT_ON_MARKET : ℚ

/-- The default configuration values (500, 60, 50, 10, 3, 5000). -/
def defaultConfig : Config :=
  { MIN_TRADE_AMOUNT := 500
    MAX_ACCOUNT_AGE_DAYS := 60
    MIN_CONCENTRATION := 50
    MAX_MARKETS_TRADED := 10
    MIN_TRADES_ON_MARKET := 3
    MIN_TOTAL_AMOUNT_ON_MARKET := 5000 }

/-- A raw WebSocket trade payload (`trade_data` in `process_trade`): an
untyped dictionary; only the keys the code reads are modelled, each optional. -/
structure RawEvent where
  transaction_hash : Option String
  transactionHash : Option String
  asset : Option String
  timestamp : Option String
  size : Option ℚ
  price : Option ℚ
  condition_id : Option String
  conditionId : Option String
  proxy_wallet : Option String
  proxyWallet : Option String
  side : Option String
  outcome : Option String
  market_slug : Option String
  slug : Option String

/-- The normalized trade dictionary built in `process_trade` (lines 521–530)
and consumed by `analyze_trade`. -/
structure Trade where
  proxyWallet : Option String
  size : ℚ
  price : ℚ
  conditionId : String
  side : String
  outcome : String
  title : String
  transactionHash : String

/-- A wallet profile as returned by the gateway: `createdAt` is the account
creation day (as a day count), `none` when the field is missing or
unparseable — both branches of `calculate_account_age` that yield 9999. -/
structure WalletProfile where
  createdAt : Option Int
  pseudonym : Option String
  name : Option String

/-- One element of the `/trades` history response used by
`get_wallet_trades_on_market`. -/
structure HistoryTrade where
  size : ℚ
  price : ℚ
  side : String

/-- One element of the `/positions` response: `conditionId` and signed
`currentValue` are the only fields the code reads. -/
structure Position where
  conditionId : String
  currentValue : ℚ
  deriving DecidableEq, Repr

/-- Oracle for the Market Data Gateway: the responses the external REST API
would give for the wallet and market of the event under analysis.  `Ok`
flags model success of the HTTP fetch; `none` in `profile` covers both a
non-200 status and a request exception; `statsResult`'s outer option is
fetch success, the inner one presence of the `traded` key; likewise
`marketQuestion` for market-info lookup and its `question` key. -/
structure Gateway where
  profile : Option WalletProfile
  historyOk : Bool
  historyTrades : List HistoryTrade
  positionsOk : Bool
  positions : List Position
  statsResult : Option (Option Int)
  marketQuestion : Option (Option String)

/-- One gateway lookup, for call-trace claims. -/
inductive GCall where
  | profileCall (wallet : String)
  | tradesCall (wallet market : String)
  | positionsCall (wallet : String)
  | statsCall (wallet : String)
  | marketInfoCall (market : String)
  deriving DecidableEq, Repr

/-- `get_wallet_profile` (lines 162–186), cold cache: the gateway response
(`None` on failure or non-200). -/
def get_wallet_profile (gw : Gateway) : Option WalletProfile :=
  gw.profile

/-- `get_wallet_positions` (lines 189–213), cold cache: the gateway response,
degraded to the empty list on a non-200 status or an exception. -/
def get_wallet_positions (gw : Gateway) : List Position :=
  if gw.positionsOk then gw.positions else []

/-- `get_wallet_stats` (lines 216–228): the stats dictionary, `none` on
failure. -/
def get_wallet_stats (gw : Gateway) : Option (Option Int) :=
  gw.statsResult

/-- The aggregate returned by `get_wallet_trades_on_market` (line 234). -/
structure MarketTradesInfo where
  trade_count : Nat
  total_amount : ℚ
  net_amount : ℚ
  dominant_side : String
  buy_amount : ℚ
  sell_amount : ℚ

/-- Sum of `size * price` over the history trades whose side is `"BUY"`
(the `total_buy_amount` accumulator of lines 249–258). -/
def totalBuyAmount (ts : List HistoryTrade) : ℚ :=
  ((ts.filter (fun t => t.side = "BUY")).map (fun t => t.size * t.price)).sum

/-- Sum of `size * price` over the history trades whose side is not `"BUY"`
(the `total_sell_amount` accumulator of lines 249–260). -/
def totalSellAmount (ts : List HistoryTrade) : ℚ :=
  ((ts.filter (fun t => ¬ t.side = "BUY")).map (fun t => t.size * t.price)).sum

/-- `get_wallet_trades_on_market` (lines 231–277): aggregates the wallet's
trade history on the market; on a failed fetch returns the zeroed
dictionary with dominant side `"UNKNOWN"`. -/
def get_wallet_trades_on_market (gw : Gateway) : MarketTradesInfo :=
  if gw.historyOk then
    let trades := gw.historyTrades
    let total_buy := totalBuyAmount trades
    let total_sell := totalSellAmount trades
    let net := total_buy - total_sell
    { trade_count := trades.length
      total_amount := total_buy + total_sell
      net_amount := |net|
      dominant_side := if net > 0 then "BUY" else "SELL"
      buy_amount := total_buy
      sell_amount := total_sell }
  else
    { trade_count := 0
      total_amount := 0
      net_amount := 0
      dominant_side := "UNKNOWN"
      buy_amount := 0
      sell_amount := 0 }

/-- `calculate_account_age` (lines 297–309): days since the profile's
creation date, 9999 when the date is missing or unparseable.  `now` is the
current day count; the day difference of the Python datetimes is modelled
as integer subtraction of day counts. -/
def calculate_account_age (now : Int) (p : WalletProfile) : Int :=
  match p.createdAt with
  | none => 9999
  | some c => now - c

/-- `calculate_portfolio_concentration` (lines 312–332): percentage of the
portfolio's absolute current value sitting in the target market; 100 for an
empty position list or a zero total. -/
def calculate_portfolio_concentration (positions : List Position) (target_market : String) : ℚ :=
  if positions = [] then 100
  else
    let total_value := (positions.map (fun p => |p.currentValue|)).sum
    let target_value :=
      ((positions.filter (fun p => p.conditionId = target_market)).map
        (fun p => |p.currentValue|)).sum
    if total_value = 0 then 100
    else target_value / total_value * 100

/-- Whale-score contribution of account age (line 400):
`min(25, (MAX_ACCOUNT_AGE_DAYS - account_age) / 2)`. -/
def freshScore (cfg : Config) (account_age : Int) : ℚ :=
  min 25 (((cfg.MAX_ACCOUNT_AGE_DAYS - account_age : Int) : ℚ) / 2)

/-- Whale-score contribution of portfolio concentration (line 401):
`min(25, concentration / 4)`. -/
def concScore (concentration : ℚ) : ℚ :=
  min 25 (concentration / 4)

/-- Whale-score contribution of total amount on the market (line 402):
`min(25, total_amount_on_market / 1000)`. -/
def totalAmtScore (total_amount : ℚ) : ℚ :=
  min 25 (total_amount / 1000)

/-- Whale-score contribution of the trade count on the market (line 403):
`min(15, trades_on_market * 3)`. -/
def tradesScore (trades_on_market : Nat) : ℚ :=
  min 15 ((trades_on_market : ℚ) * 3)

/-- Whale-score contribution of breadth of markets traded (line 404):
`min(10, MAX_MARKETS_TRADED - markets_traded)` when below the bound,
else 0. -/
def marketsScore (cfg : Config) (markets_traded : Int) : ℚ :=
  if markets_traded < cfg.MAX_MARKETS_TRADED then
    min 10 ((cfg.MAX_MARKETS_TRADED - markets_traded : Int) : ℚ)
  else 0

/-- The analysis dictionary returned by `analyze_trade` (lines 406–431). -/
structure Analysis where
  wallet : String
  username : String
  account_age_days : Int
  market_title : String
  outcome : String
  side : String
  amount : ℚ
  price : ℚ
  size : ℚ
  trades_on_market : Nat
  total_amount_on_market : ℚ
  net_position : ℚ
  dominant_side : String
  concentration : ℚ
  markets_traded : Int
  total_positions : Nat
  whale_score : ℚ
  tx_hash : String
  deriving DecidableEq, Repr

/-- Result of `analyze_trade` together with the trace of gateway lookups it
performed. -/
structure AnalyzeResult where
  analysis : Option Analysis
  calls : List GCall

/-- Wallet extraction at the top of `analyze_trade` (lines 341–343):
`trade.get("proxyWallet") or trade.get("proxy_wallet")`, rejecting a falsy
result (the normalized dictionary has no `proxy_wallet` key). -/
def tradeWallet (t : Trade) : Option String :=
  match t.proxyWallet with
  | some s => if s = "" then none else some s
  | none => none

/-- `analyze_trade` (lines 335–431), over the gateway oracle `gw` and the
current day count `now`.  Each early `return None` of the Python function is
one `none` branch, paired with the gateway lookups performed up to that
point. -/
def analyzeTrade (cfg : Config) (now : Int) (gw : Gateway) (t : Trade) : AnalyzeResult :=
  match tradeWallet t with
  | none => ⟨none, []⟩
  | some wallet =>
    let size := t.size
    let price := t.price
    let trade_amount := size * price
    let market_id := t.conditionId
    if trade_amount < cfg.MIN_TRADE_AMOUNT then ⟨none, []⟩
    else if price > 1/2 then ⟨none, []⟩
    else
      match get_wallet_profile gw with
      | none => ⟨none, [GCall.profileCall wallet]⟩
      | some profile =>
        let account_age := calculate_account_age now profile
        if account_age > cfg.MAX_ACCOUNT_AGE_DAYS then ⟨none, [GCall.profileCall wallet]⟩
        else
          let market_trades := get_wallet_trades_on_market gw
          let calls2 := [GCall.profileCall wallet, GCall.tradesCall wallet market_id]
          if market_trades.trade_count < cfg.MIN_TRADES_ON_MARKET then ⟨none, calls2⟩
          else if market_trades.total_amount < cfg.MIN_TOTAL_AMOUNT_ON_MARKET then ⟨none, calls2⟩
          else
            let positions := get_wallet_positions gw
            let concentration := calculate_portfolio_concentration positions market_id
            let markets_traded :=
              match get_wallet_stats gw with
              | some d => d.getD 0
              | none => 0
            let calls4 := calls2 ++ [GCall.positionsCall wallet, GCall.statsCall wallet]
            let titleCalls : String × List GCall :=
              if t.title = "" then
                (match gw.marketQuestion with
                 | some info => info.getD "Unknown Market"
                 | none => "Unknown Market",
                 calls4 ++ [GCall.marketInfoCall market_id])
              else (t.title, calls4)
            let whale_score :=
              freshScore cfg account_age + concScore concentration +
              totalAmtScore market_trades.total_amount +
              tradesScore market_trades.trade_count +
              marketsScore cfg markets_traded
            ⟨some
              { wallet := wallet
                username := pyOrS profile.pseudonym (pyOrS profile.name "Unknown")
                account_age_days := account_age
                market_title := titleCalls.1
                outcome := t.outcome
                side := t.side
                amount := pyRound 2 trade_amount
                price := price
                size := size
                trades_on_market := market_trades.trade_count
                total_amount_on_market := pyRound 2 market_trades.total_amount
                net_position := pyRound 2 market_trades.net_amount
                dominant_side := market_trades.dominant_side
                concentration := pyRound 1 concentration
                markets_traded := markets_traded
                total_positions := positions.length
                whale_score := pyRound 1 whale_score
                tx_hash := t.transactionHash },
              titleCalls.2⟩

/-- The dedup identity built in `process_trade` (line 488):
`f"{transaction_hash}-{asset}-{timestamp}"`. -/
def tradeId (ev : RawEvent) : String :=
  (ev.transaction_hash.getD "") ++ "-" ++ (ev.asset.getD "") ++ "-" ++ (ev.timestamp.getD "")

/-- The `normalized_trade` dictionary of `process_trade` (lines 521–530). -/
def normalizeTrade (ev : RawEvent) : Trade :=
  { proxyWallet := pyOrOpt ev.proxy_wallet ev.proxyWallet
    size := ev.size.getD 0
    price := ev.price.getD 0
    conditionId := pyOrS ev.condition_id (ev.conditionId.getD "")
    side := ev.side.getD ""
    outcome := ev.outcome.getD ""
    title := pyOrS ev.market_slug (ev.slug.getD "")
    transactionHash := pyOrS ev.transaction_hash (ev.transactionHash.getD "") }

/-- Maximum size of the `seen_trades` cache before eviction (line 497). -/
def SEEN_TRADES_MAX : Nat := 100000

/-- Number of entries removed on overflow: `seen_list[50000:]` keeps the
enumeration's tail (line 501). -/
def SEEN_TRADES_EVICT : Nat := 50000

/-- The bounded-cache maintenance of `process_trade` (lines 496–501);
`seen` is the set's contents in insertion order, and `enum` is the order
`list(seen_trades)` enumerates them in — unspecified for a Python `set`, so
it is a parameter (any permutation of the contents).  When the size exceeds
100000 the first 50000 elements of the enumeration are dropped. -/
def dedupMaintain {α : Type} (enum : List α → List α) (seen : List α) : List α :=
  if seen.length > SEEN_TRADES_MAX then (enum seen).drop SEEN_TRADES_EVICT else seen

/-- Where processing of one raw event stopped inside `process_trade`. -/
inductive POutcome where
  | dedupSkip
  | smallSkip
  | excludedSkip
  | noAlert
  | alerted
  deriving DecidableEq, Repr

/-- Result of `process_trade`: the updated `seen_trades` state, the gateway
lookups performed, where processing stopped, and the analysis if one was
produced. -/
structure ProcResult where
  seen : List String
  calls : List GCall
  outcome : POutcome
  analysis : Option Analysis

/-- `process_trade` (lines 481–547): dedup, bounded-cache maintenance, the
small-trade fast filter, the excluded-market filter, then `analyze_trade`
and the alert threshold.  `excluded` is the excluded-markets cache and
`enum` the set-enumeration order used by the eviction step. -/
def processTrade (cfg : Config) (now : Int) (gw : Gateway) (excluded : List String)
    (enum : List String → List String) (seen : List String) (ev : RawEvent) : ProcResult :=
  let trade_id := tradeId ev
  if trade_id ∈ seen then ⟨seen, [], POutcome.dedupSkip, none⟩
  else
    let seen2 := dedupMaintain enum (seen ++ [trade_id])
    let size := ev.size.getD 0
    let price := ev.price.getD 0
    let trade_amount := size * price
    if trade_amount < cfg.MIN_TRADE_AMOUNT then ⟨seen2, [], POutcome.smallSkip, none⟩
    else
      let condition_id := pyOrS ev.condition_id (ev.conditionId.getD "")
      if condition_id ∈ excluded then ⟨seen2, [], POutcome.excludedSkip, none⟩
      else
        let r := analyzeTrade cfg now gw (normalizeTrade ev)
        match r.analysis with
        | some a =>
          if a.whale_score ≥ 40 then ⟨seen2, r.calls, POutcome.alerted, some a⟩
          else ⟨seen2, r.calls, POutcome.noAlert, some a⟩
        | none => ⟨seen2, r.calls, POutcome.noAlert, none⟩

/-- Initial `reconnect_delay` of `WebSocketClient.__init__` (line 558). -/
def initReconnectDelay : Nat := 5

/-- The delay update in `on_close` (line 615): after sleeping the current
delay, it becomes `min(delay * 2, 60)`. -/
def onCloseNextDelay (d : Nat) : Nat := min (d * 2) 60

/-- The delay reset in `on_open` (line 566): a successful connection sets
the delay back to 5. -/
def onOpenDelay (_d : Nat) : Nat := 5

/-- The waits observed over `n` consecutive connection failures starting
from delay `d`: each `on_close` sleeps the current delay, then doubles it
with the 60-second cap. -/
def backoffWaits : Nat → Nat → List Nat
  | 0, _ => []
  | Nat.succ n, d => d :: backoffWaits n (onCloseNextDelay d)

/-- Modelled from the spec: the Liquidity-Provider Classifier (spec §4.5) has
no counterpart in `src/whale_detector.py` (only this one of the repository's
seven rewrites is in `src/`); one of a wallet's positions, with the traded
market, the binary outcome side (spec: binary yes/no detection by label,
modelled as a `Bool`), and a signed current value. -/
structure LPPosition where
  market : String
  sideYes : Bool
  value : ℚ
  deriving DecidableEq, Repr

/-- Modelled from the spec: the classifier's minimum absolute side sum
(spec §4.5, "a minimum absolute threshold (e.g., 100 units)"). -/
def LP_MIN_SIDE_SUM : ℚ := 100

/-- Modelled from the spec: the classifier's balance threshold on the
smaller-to-larger ratio (spec §4.5, "a balance threshold (e.g., 0.5)"). -/
def LP_BALANCE_THRESHOLD : ℚ := 1/2

/-- Modelled from the spec: sum of absolute position values on one outcome
side (spec §4.5, "sum absolute value of positions by outcome side"). -/
def sideSum (ps : List LPPosition) (yes : Bool) : ℚ :=
  ((ps.filter (fun p => p.sideYes = yes)).map (fun p => |p.value|)).sum

/-- Modelled from the spec: the Liquidity-Provider Classifier of spec §4.5.
Filter positions to the traded market; with fewer than two positions,
not-LP; otherwise LP exactly when both side sums exceed the minimum
absolute threshold and the smaller-to-larger ratio exceeds the balance
threshold. -/
def isLP (positions : List LPPosition) (market : String) : Bool :=
  let ps := positions.filter (fun p => p.market = market)
  if ps.length < 2 then false
  else
    let yesSum := sideSum ps true
    let noSum := sideSum ps false
    let lo := min yesSum noSum
    let hi := max yesSum noSum
    decide (LP_MIN_SIDE_SUM < lo ∧ LP_MIN_SIDE_SUM < hi ∧ LP_BALANCE_THRESHOLD < lo / hi)

/-- Swapping which side of a position is labeled yes/no. -/
def swapSides (p : LPPosition) : LPPosition :=
  { p with sideYes := !p.sideYes }

/-- The DedupKey as the spec describes it — "derived from (transaction
identifier, market identifier)" — written from the spec's words, to be
compared with the code's `tradeId`. -/
def specDedupKey (ev : RawEvent) : String × String :=
  (ev.transaction_hash.getD "", pyOrS ev.condition_id (ev.conditionId.getD ""))

/-- The fresh-wallet signal as spec §4.6 describes it: only for account age
at most the configured max-fresh-age, with score
`max × (1 − age / max-fresh-age)`; written from the spec's words, to be
compared with the code's `freshScore`. -/
def specFreshSignal (maxScore maxFreshAge : ℚ) (age : ℚ) : Option ℚ :=
  if age ≤ maxFreshAge then some (maxScore * (1 - age / maxFreshAge)) else none

/-- A gateway oracle on which every lookup fails. -/
def gwEmpty : Gateway :=
  { profile := none
    historyOk := false
    historyTrades := []
    positionsOk := false
    positions := []
    statsResult := none
    marketQuestion := none }

/-- A gateway oracle whose position lookup fails while every other lookup
succeeds: profile created 10 days before day 0, three BUY history trades of
notional 2000 each, five markets traded. -/
def gwBadPos : Gateway :=
  { profile := some { createdAt := some (-10), pseudonym := none, name := none }
    historyOk := true
    historyTrades :=
      [{ size := 4000, price := 1/2, side := "BUY" },
       { size := 4000, price := 1/2, side := "BUY" },
       { size := 4000, price := 1/2, side := "BUY" }]
    positionsOk := false
    positions := [{ conditionId := "m", currentValue := 50 }]
    statsResult := some (some 5)
    marketQuestion := none }

/-- A gateway oracle whose profile has no parseable creation date, making
the computed account age 9999. -/
def gwOldProfile : Gateway :=
  { gwBadPos with profile := some { createdAt := none, pseudonym := none, name := none } }

/-- A normalized trade of notional 6000 at price exactly 0.5. -/
def tFull : Trade :=
  { proxyWallet := some "w"
    size := 12000
    price := 1/2
    conditionId := "m"
    side := "BUY"
    outcome := "Yes"
    title := "T"
    transactionHash := "0x" }

/-- A normalized trade of notional 1000 at price exactly 0.5. -/
def tHalf : Trade :=
  { proxyWallet := some "w"
    size := 2000
    price := 1/2
    conditionId := "m"
    side := "BUY"
    outcome := "Yes"
    title := "T"
    transactionHash := "0x" }

/-- A raw trade event of zero size; transaction hash "t", asset "a",
timestamp "1", market "m". -/
def evA : RawEvent :=
  { transaction_hash := some "t"
    transactionHash := none
    asset := some "a"
    timestamp := some "1"
    size := some 0
    price := some 0
    condition_id := some "m"
    conditionId := none
    proxy_wallet := none
    proxyWallet := none
    side := none
    outcome := none
    market_slug := none
    slug := none }

/-- The same raw event as `evA` except for its timestamp. -/
def evB : RawEvent :=
  { evA with timestamp := some "2" }

/-- The analysis `analyze_trade` produces for `tFull` against `gwBadPos`
on day 0. -/
def sampleAnalysis : Analysis :=
  { wallet := "w"
    username := "Unknown"
    account_age_days := 10
    market_title := "T"
    outcome := "Yes"
    side := "BUY"
    amount := 6000
    price := 1/2
    size := 12000
    trades_on_market := 3
    total_amount_on_market := 6000
    net_position := 6000
    dominant_side := "BUY"
    concentration := 100
    markets_traded := 5
    total_positions := 0
    whale_score := 70
    tx_hash := "0x" }

lemma round_mono_q {x y : ℚ} (h : x ≤ y) : round x ≤ round y := by
  rw [round_eq, round_eq]
  exact Int.floor_le_floor (by linarith)

lemma pyRound_one_bounds {x : ℚ} (h0 : 0 ≤ x) (h1 : x ≤ 100) :
    0 ≤ pyRound 1 x ∧ pyRound 1 x ≤ 100 := by
  have hlo : round (0 : ℚ) ≤ round (x * (10 : ℚ) ^ 1) := round_mono_q (by nlinarith)
  have hhi : round (x * (10 : ℚ) ^ 1) ≤ round (((1000 : ℤ) : ℚ)) :=
    round_mono_q (by push_cast; nlinarith)
  rw [round_zero] at hlo
  rw [round_intCast] at hhi
  have hlo2 : (0 : ℚ) ≤ ((round (x * (10 : ℚ) ^ 1) : ℤ) : ℚ) := by exact_mod_cast hlo
  have hhi2 : ((round (x * (10 : ℚ) ^ 1) : ℤ) : ℚ) ≤ 1000 := by exact_mod_cast hhi
  unfold pyRound
  constructor
  · positivity
  · rw [div_le_iff₀ (by norm_num)]
    nlinarith

lemma concentration_bounds (positions : List Position) (m : String) :
    0 ≤ calculate_portfolio_concentration positions m ∧
    calculate_portfolio_concentration positions m ≤ 100 := by
  unfold calculate_portfolio_concentration
  split
  · norm_num
  · simp only []
    split
    · norm_num
    · rename_i hne hnz
      have habs : ∀ a ∈ positions.map (fun p => |p.currentValue|), 0 ≤ a := by
        intro a ha
        obtain ⟨p, _, hp⟩ := List.mem_map.mp ha
        rw [← hp]
        exact abs_nonneg _
      have htot : 0 ≤ (positions.map (fun p => |p.currentValue|)).sum :=
        List.sum_nonneg habs
      have htpos : 0 < (positions.map (fun p => |p.currentValue|)).sum :=
        lt_of_le_of_ne htot (Ne.symm hnz)
      have hsub :
          ((positions.filter (fun p => p.conditionId = m)).map (fun p => |p.currentValue|)).sum ≤
            (positions.map (fun p => |p.currentValue|)).sum := by
        refine List.Sublist.sum_le_sum ?_ habs
        exact (List.filter_sublist positions).map _
      have htv : 0 ≤ ((positions.filter (fun p => p.conditionId = m)).map
          (fun p => |p.currentValue|)).sum := by
        refine List.sum_nonneg ?_
        intro a ha
        obtain ⟨p, _, hp⟩ := List.mem_map.mp ha
        rw [← hp]
        exact abs_nonneg _
      constructor
      · positivity
      · have hr : ((positions.filter (fun p => p.conditionId = m)).map
            (fun p => |p.currentValue|)).sum /
            (positions.map (fun p => |p.currentValue|)).sum ≤ 1 :=
          (div_le_one htpos).mpr hsub
        nlinarith

lemma freshScore_bounds (cfg : Config) (age : Int) (h : age ≤ cfg.MAX_ACCOUNT_AGE_DAYS) :
    0 ≤ freshScore cfg age ∧ freshScore cfg age ≤ 25 := by
  unfold freshScore
  constructor
  · apply le_min (by norm_num)
    have : (0 : ℚ) ≤ ((cfg.MAX_ACCOUNT_AGE_DAYS - age : Int) : ℚ) := by
      exact_mod_cast Int.sub_nonneg.mpr h
    linarith
  · exact min_le_left _ _

lemma concScore_bounds {c : ℚ} (h0 : 0 ≤ c) : 0 ≤ concScore c ∧ concScore c ≤ 25 := by
  unfold concScore
  exact ⟨le_min (by norm_num) (by linarith), min_le_left _ _⟩

lemma totalAmtScore_bounds {t : ℚ} (h0 : 0 ≤ t) :
    0 ≤ totalAmtScore t ∧ totalAmtScore t ≤ 25 := by
  unfold totalAmtScore
  exact ⟨le_min (by norm_num) (by linarith), min_le_left _ _⟩

lemma tradesScore_bounds (n : Nat) : 0 ≤ tradesScore n ∧ tradesScore n ≤ 15 := by
  unfold tradesScore
  constructor
  · apply le_min (by norm_num)
    positivity
  · exact min_le_left _ _

lemma marketsScore_bounds (cfg : Config) (m : Int) :
    0 ≤ marketsScore cfg m ∧ marketsScore cfg m ≤ 10 := by
  unfold marketsScore
  split
  · rename_i hlt
    constructor
    · apply le_min (by norm_num)
      have : (0 : ℚ) ≤ ((cfg.MAX_MARKETS_TRADED - m : Int) : ℚ) := by
        exact_mod_cast Int.sub_nonneg.mpr hlt.le
      linarith
    · exact min_le_left _ _
  · norm_num

lemma analyzeTrade_analysis_eq (cfg : Config) (now : Int) (gw : Gateway) (t : Trade)
    (a : Analysis) (h : (analyzeTrade cfg now gw t).analysis = some a) :
    ∃ wallet profile,
      tradeWallet t = some wallet ∧
      gw.profile = some profile ∧
      calculate_account_age now profile ≤ cfg.MAX_ACCOUNT_AGE_DAYS ∧
      cfg.MIN_TRADES_ON_MARKET ≤ (get_wallet_trades_on_market gw).trade_count ∧
      cfg.MIN_TOTAL_AMOUNT_ON_MARKET ≤ (get_wallet_trades_on_market gw).total_amount ∧
      a.account_age_days = calculate_account_age now profile ∧
      a.concentration =
        pyRound 1 (calculate_portfolio_concentration (get_wallet_positions gw) t.conditionId) ∧
      a.total_positions = (get_wallet_positions gw).length ∧
      a.whale_score =
        pyRound 1 (freshScore cfg (calculate_account_age now profile) +
          concScore (calculate_portfolio_concentration (get_wallet_positions gw) t.conditionId) +
          totalAmtScore (get_wallet_trades_on_market gw).total_amount +
          tradesScore (get_wallet_trades_on_market gw).trade_count +
          marketsScore cfg (match get_wallet_stats gw with
            | some d => d.getD 0
            | none => 0)) := by
  unfold analyzeTrade at h
  split at h
  · simp at h
  · rename_i wallet hw
    simp only [] at h
    split at h
    · simp at h
    · split at h
      · simp at h
      · split at h
        · simp at h
        · rename_i profile hp
          split at h
          · simp at h
          · rename_i hage
            split at h
            · simp at h
            · split at h
              · simp at h
              · rename_i hcnt htot
                refine ⟨wallet, profile, hw, hp, not_lt.mp hage, not_lt.mp hcnt,
                  not_lt.mp htot, ?_, ?_, ?_, ?_⟩ <;>
                · obtain rfl : _ = a := by simpa using h
                  rfl

lemma filterMarket_map_swap (ps : List LPPosition) (m : String) :
    (ps.map swapSides).filter (fun p => p.market = m) =
      (ps.filter (fun p => p.market = m)).map swapSides := by
  induction ps with
  | nil => rfl
  | cons p ps ih =>
    by_cases h : p.market = m <;> simp [swapSides, h, ih, List.filter_cons]

lemma sideSum_map_swap (ps : List LPPosition) (yes : Bool) :
    sideSum (ps.map swapSides) yes = sideSum ps (!yes) := by
  induction ps with
  | nil => rfl
  | cons p ps ih =>
    simp only [sideSum, List.map_cons, List.filter_cons] at *
    cases hp : p.sideYes <;> cases yes <;> simp_all [swapSides]

/-- Claim C5: the reconnection delay starts at 5 seconds, doubles after each
failed attempt and is capped at 60 seconds, so six consecutive failures
wait 5, 10, 20, 40, 60, 60 seconds; a successful connection resets the
delay to the 5-second minimum. -/
theorem C5_reconnect_backoff :
    initReconnectDelay = 5 ∧
    backoffWaits 6 initReconnectDelay = [5, 10, 20, 40, 60, 60] ∧
    (∀ d : Nat, onOpenDelay d = initReconnectDelay) :=
  ⟨rfl, by decide, fun _ => rfl⟩

/-- Claim C10: `calculate_portfolio_concentration` is total and never
divides by zero: an empty position list, or one whose absolute current
values sum to zero, yields exactly 100; otherwise the result is
(target-market value / total value) × 100, and it always lies between 0 and
100 inclusive. -/
theorem C10_concentration_total_safe (positions : List Position) (m : String) :
    (positions = [] → calculate_portfolio_concentration positions m = 100) ∧
    ((positions.map (fun p => |p.currentValue|)).sum = 0 →
      calculate_portfolio_concentration positions m = 100) ∧
    (positions ≠ [] → (positions.map (fun p => |p.currentValue|)).sum ≠ 0 →
      calculate_portfolio_concentration positions m =
        ((positions.filter (fun p => p.conditionId = m)).map
          (fun p => |p.currentValue|)).sum /
          (positions.map (fun p => |p.currentValue|)).sum * 100) ∧
    0 ≤ calculate_portfolio_concentration positions m ∧
    calculate_portfolio_concentration positions m ≤ 100 := by
  refine ⟨?_, ?_, ?_, concentration_bounds positions m⟩
  · intro h
    simp [calculate_portfolio_concentration, h]
  · intro h
    unfold calculate_portfolio_concentration
    split
    · rfl
    · simp only []
      rw [if_pos h]
  · intro h1 h2
    unfold calculate_portfolio_concentration
    rw [if_neg h1]
    simp only []
    rw [if_neg h2]

theorem C10_concentration_witness :
    calculate_portfolio_concentration [] "m" = 100 ∧
    0 ≤ calculate_portfolio_concentration [{ conditionId := "m", currentValue := 3 }] "m" :=
  ⟨(C10_concentration_total_safe [] "m").1 rfl,
    (C10_concentration_total_safe [{ conditionId := "m", currentValue := 3 }] "m").2.2.2.1⟩

/-- Claim C3 counterexample: the code's account-age score contribution is
`min(25, (60 − age)/2)`, not the spec's `max × (1 − age/max-fresh-age)`
with max 30 and max-fresh-age 45: at age 0 the code contributes 25 while
the claim says 30; at age 45 the code contributes 7.5 while the claim says
0; at age 46 the claim says the signal is omitted entirely, but the code's
only age gate is age > 60, so age 46 still contributes 7. -/
theorem C3_counterexample :
    freshScore defaultConfig 0 = 25 ∧ specFreshSignal 30 45 0 = some 30 ∧
    freshScore defaultConfig 45 = 15/2 ∧ specFreshSignal 30 45 45 = some 0 ∧
    freshScore defaultConfig 46 = 7 ∧ specFreshSignal 30 45 46 = none ∧
    ¬ (46 : Int) > defaultConfig.MAX_ACCOUNT_AGE_DAYS := by
  norm_num [freshScore, specFreshSignal, defaultConfig]

/-- Claim C3 (amended): the account-age contribution is
`min(25, (MAX_ACCOUNT_AGE_DAYS − age)/2)` with default maximum 60 — age 0
yields 25 and age 60 yields 0 — and the contribution is computed only after
the age gate: when the account age exceeds the maximum, `analyze_trade`
rejects the event outright and produces no analysis at all. -/
theorem C3_fresh_amended (cfg : Config) (now : Int) (gw : Gateway) (t : Trade)
    (hold : ∀ p, gw.profile = some p →
      calculate_account_age now p > cfg.MAX_ACCOUNT_AGE_DAYS) :
    freshScore defaultConfig 0 = 25 ∧ freshScore defaultConfig 60 = 0 ∧
    (analyzeTrade cfg now gw t).analysis = none := by
  refine ⟨by norm_num [freshScore, defaultConfig], by norm_num [freshScore, defaultConfig], ?_⟩
  cases hres : (analyzeTrade cfg now gw t).analysis with
  | none => rfl
  | some a =>
    obtain ⟨w, p, hw, hp, hage, -, -, -, -, -, -⟩ :=
      analyzeTrade_analysis_eq cfg now gw t a hres
    exact absurd (hold p hp) (not_lt.mpr hage)

theorem C3_fresh_witness :
    freshScore defaultConfig 0 = 25 ∧ freshScore defaultConfig 60 = 0 ∧
    (analyzeTrade defaultConfig 0 gwOldProfile tFull).analysis = none :=
  C3_fresh_amended defaultConfig 0 gwOldProfile tFull
    (by
      intro p hp
      have hp2 : p = { createdAt := none, pseudonym := none, name := none } := by
        have h2 := hp
        simp [gwOldProfile, gwBadPos] at h2
        exact h2.symm
      subst hp2
      decide)

/-- Claim C8 (spec-modelled): a wallet with balanced books on both sides of
the traded market — both side sums above the minimum threshold and
smaller-to-larger ratio above the balance threshold, such as 600 "yes"
versus 500 "no" — is classified LP; a 600/50 book is not; the
classification is invariant under swapping which side is labeled yes/no;
and a wallet with fewer than two positions in the market is never
classified LP. -/
theorem C8_lp_classifier :
    isLP [{ market := "m", sideYes := true, value := 600 },
          { market := "m", sideYes := false, value := 500 }] "m" = true ∧
    isLP [{ market := "m", sideYes := true, value := 600 },
          { market := "m", sideYes := false, value := 50 }] "m" = false ∧
    (∀ (ps : List LPPosition) (m : String), isLP (ps.map swapSides) m = isLP ps m) ∧
    (∀ (ps : List LPPosition) (m : String),
      (ps.filter (fun p => p.market = m)).length < 2 → isLP ps m = false) := by
  refine ⟨by norm_num [isLP, sideSum, LP_MIN_SIDE_SUM, LP_BALANCE_THRESHOLD],
    by norm_num [isLP, sideSum, LP_MIN_SIDE_SUM, LP_BALANCE_THRESHOLD], ?_, ?_⟩
  · intro ps m
    by_cases hlen : (ps.filter (fun p => p.market = m)).length < 2
    · simp [isLP, filterMarket_map_swap, List.length_map, hlen]
    · simp only [isLP, filterMarket_map_swap, List.length_map, if_neg hlen,
        sideSum_map_swap, Bool.not_true, Bool.not_false]
      rw [min_comm (sideSum (ps.filter (fun p => p.market = m)) false),
        max_comm (sideSum (ps.filter (fun p => p.market = m)) false)]
  · intro ps m h
    unfold isLP
    simp only []
    rw [if_pos h]

theorem C8_lp_witness :
    isLP [] "m" = false ∧
    isLP [{ market := "m", sideYes := true, value := 600 },
          { market := "m", sideYes := false, value := 500 }] "m" = true :=
  ⟨C8_lp_classifier.2.2.2 [] "m" (by simp), C8_lp_classifier.1⟩

lemma sampleAnalysis_eq :
    (analyzeTrade defaultConfig 0 gwBadPos tFull).analysis = some sampleAnalysis := by
  have hw : tradeWallet tFull = some "w" := by decide
  have ht : ¬ (("T" : String) = "") := by decide
  unfold analyzeTrade
  rw [hw]
  norm_num [tFull, gwBadPos, defaultConfig,
    get_wallet_profile, get_wallet_trades_on_market, get_wallet_positions,
    get_wallet_stats, totalBuyAmount, totalSellAmount, calculate_account_age,
    calculate_portfolio_concentration, freshScore, concScore, totalAmtScore,
    tradesScore, marketsScore, pyRound, pyOrS, sampleAnalysis, ht]

/-- Claim C9: whenever `analyze_trade` returns an analysis, the whale score
lies between 0 and 100 inclusive: under the already-passed age gate each of
the five contributions is non-negative and capped at 25, 25, 25, 15 and 10
respectively. -/
theorem C9_whale_score_range (cfg : Config)
    (hmin : 0 ≤ cfg.MIN_TOTAL_AMOUNT_ON_MARKET)
    (now : Int) (gw : Gateway) (t : Trade) (a : Analysis)
    (h : (analyzeTrade cfg now gw t).analysis = some a) :
    0 ≤ a.whale_score ∧ a.whale_score ≤ 100 := by
  obtain ⟨w, p, hw, hp, hage, hcnt, htot, -, -, -, hscore⟩ :=
    analyzeTrade_analysis_eq cfg now gw t a h
  have h1 := freshScore_bounds cfg _ hage
  have h2 := concScore_bounds
    (concentration_bounds (get_wallet_positions gw) t.conditionId).1
  have h3 := totalAmtScore_bounds (le_trans hmin htot)
  have h4 := tradesScore_bounds (get_wallet_trades_on_market gw).trade_count
  have h5 := marketsScore_bounds cfg
    (match get_wallet_stats gw with | some d => d.getD 0 | none => 0)
  rw [hscore]
  exact pyRound_one_bounds (by linarith [h1.1, h2.1, h3.1, h4.1, h5.1])
    (by linarith [h1.2, h2.2, h3.2, h4.2, h5.2])

theorem C9_whale_score_witness :
    0 ≤ sampleAnalysis.whale_score ∧ sampleAnalysis.whale_score ≤ 100 :=
  C9_whale_score_range defaultConfig (by norm_num [defaultConfig]) 0 gwBadPos
    tFull sampleAnalysis sampleAnalysis_eq

/-- Claim C4 counterexample: with a gateway whose position lookup fails,
`analyze_trade` does not abort — for the concrete event `tFull` against
`gwBadPos` it still produces an analysis (whale score 70, which clears the
alert threshold of 40), continuing with the empty-list substitute. -/
theorem C4_counterexample :
    gwBadPos.positionsOk = false ∧
    (analyzeTrade defaultConfig 0 gwBadPos tFull).analysis = some sampleAnalysis ∧
    sampleAnalysis.whale_score = 70 ∧ (40 : ℚ) ≤ sampleAnalysis.whale_score :=
  ⟨rfl, sampleAnalysis_eq, rfl, by norm_num [sampleAnalysis]⟩

/-- Claim C4 (amended): when the gateway position lookup fails,
`get_wallet_positions` degrades to the empty list and processing continues
with that substitute — any analysis produced for such an event reports a
portfolio concentration of 100 and zero total positions. -/
theorem C4_positions_amended (cfg : Config) (now : Int) (gw : Gateway) (t : Trade)
    (hfail : gw.positionsOk = false) (a : Analysis)
    (h : (analyzeTrade cfg now gw t).analysis = some a) :
    get_wallet_positions gw = [] ∧ a.concentration = 100 ∧ a.total_positions = 0 := by
  have hpos : get_wallet_positions gw = [] := by
    simp [get_wallet_positions, hfail]
  obtain ⟨w, p, hw, hp, -, -, -, -, hconc, hlenp, -⟩ :=
    analyzeTrade_analysis_eq cfg now gw t a h
  refine ⟨hpos, ?_, ?_⟩
  · rw [hconc, hpos]
    norm_num [calculate_portfolio_concentration, pyRound]
  · rw [hlenp, hpos]
    rfl

theorem C4_positions_witness :
    get_wallet_positions gwBadPos = [] ∧ sampleAnalysis.concentration = 100 ∧
    sampleAnalysis.total_positions = 0 :=
  C4_positions_amended defaultConfig 0 gwBadPos tFull rfl sampleAnalysis sampleAnalysis_eq

/-- Claim C7 counterexample: the longshot filter is `if price > 0.5`, so an
event priced exactly at the threshold is not stopped there — for the
concrete trade `tHalf` at price 0.5 the pipeline proceeds to enrichment and
performs the wallet-profile gateway lookup. -/
theorem C7_counterexample :
    tHalf.price = 1/2 ∧
    (analyzeTrade defaultConfig 0 gwEmpty tHalf).calls = [GCall.profileCall "w"] := by
  have hw : tradeWallet tHalf = some "w" := by decide
  refine ⟨rfl, ?_⟩
  unfold analyzeTrade
  rw [hw]
  norm_num [tHalf, gwEmpty, defaultConfig, get_wallet_profile]

/-- Claim C7 (amended): the longshot fast filter stops an event exactly
when its price strictly exceeds the 0.5 threshold; an event whose price is
at most the threshold (equality included) passes the filter, and once the
wallet and notional checks also pass, the profile enrichment lookup is
performed. -/
theorem C7_longshot_amended (cfg : Config) (now : Int) (gw : Gateway) (t : Trade)
    (w : String) (hw : tradeWallet t = some w) :
    (t.price > 1/2 → analyzeTrade cfg now gw t = ⟨none, []⟩) ∧
    (¬ t.price > 1/2 → ¬ t.size * t.price < cfg.MIN_TRADE_AMOUNT →
      (analyzeTrade cfg now gw t).calls.head? = some (GCall.profileCall w)) := by
  constructor
  · intro hp
    unfold analyzeTrade
    rw [hw]
    simp only [if_pos hp]
    split <;> rfl
  · intro hp hamt
    unfold analyzeTrade
    rw [hw]
    simp only []
    rw [if_neg hamt, if_neg hp]
    cases hprof : get_wallet_profile gw with
    | none => simp
    | some profile =>
      simp only []
      split
      · simp
      · split
        · simp
        · split
          · simp
          · split <;> simp

theorem C7_longshot_witness :
    (tHalf.price > 1/2 → analyzeTrade defaultConfig 0 gwEmpty tHalf = ⟨none, []⟩) ∧
    (¬ tHalf.price > 1/2 →
      ¬ tHalf.size * tHalf.price < defaultConfig.MIN_TRADE_AMOUNT →
      (analyzeTrade defaultConfig 0 gwEmpty tHalf).calls.head? =
        some (GCall.profileCall "w")) :=
  C7_longshot_amended defaultConfig 0 gwEmpty tHalf "w" (by decide)

/-- Claim C2: a trade whose notional (size × price) is strictly below the
configured minimum is dropped by `process_trade` before any enrichment: no
gateway lookup of any kind is performed and no analysis is produced. -/
theorem C2_small_trade_no_enrichment (cfg : Config) (now : Int) (gw : Gateway)
    (excluded : List String) (enum : List String → List String)
    (seen : List String) (ev : RawEvent)
    (hsmall : ev.size.getD 0 * ev.price.getD 0 < cfg.MIN_TRADE_AMOUNT) :
    (processTrade cfg now gw excluded enum seen ev).calls = [] ∧
    (processTrade cfg now gw excluded enum seen ev).analysis = none := by
  unfold processTrade
  simp only []
  constructor <;>
  · split <;> rfl

theorem C2_small_trade_witness :
    (processTrade defaultConfig 0 gwEmpty [] (fun l => l) [] evA).calls = [] ∧
    (processTrade defaultConfig 0 gwEmpty [] (fun l => l) [] evA).analysis = none :=
  C2_small_trade_no_enrichment defaultConfig 0 gwEmpty [] (fun l => l) [] evA
    (by norm_num [evA, defaultConfig])

lemma processTrade_mem_seen (cfg : Config) (now : Int) (gw : Gateway)
    (excluded : List String) (enum : List String → List String)
    (seen : List String) (ev : RawEvent) (h : tradeId ev ∈ seen) :
    processTrade cfg now gw excluded enum seen ev =
      ⟨seen, [], POutcome.dedupSkip, none⟩ := by
  unfold processTrade
  simp only []
  rw [if_pos h]

lemma processTrade_not_mem_seen (cfg : Config) (now : Int) (gw : Gateway)
    (excluded : List String) (enum : List String → List String)
    (seen : List String) (ev : RawEvent) (h : tradeId ev ∉ seen) :
    (processTrade cfg now gw excluded enum seen ev).seen =
      dedupMaintain enum (seen ++ [tradeId ev]) ∧
    (processTrade cfg now gw excluded enum seen ev).outcome ≠ POutcome.dedupSkip := by
  unfold processTrade
  simp only []
  rw [if_neg h]
  constructor
  · split
    · rfl
    · split
      · rfl
      · split
        · split <;> rfl
        · rfl
  · split
    · simp
    · split
      · simp
      · split
        · split <;> simp
        · simp

/-- Claim C1 (amended): the dedup key `process_trade` builds is derived
from (transaction hash, asset identifier, timestamp) — not (transaction
identifier, market identifier).  For two events with equal keys, when the
cache is below its eviction bound, only the first passes the dedup stage:
processing of the second stops at the dedup check with no filter run, no
gateway lookup and no analysis, while the first is not stopped there. -/
theorem C1_dedup_amended (cfg : Config) (now : Int) (gw : Gateway)
    (excluded : List String) (enum : List String → List String)
    (seen : List String) (ev1 ev2 : RawEvent)
    (hkey : tradeId ev1 = tradeId ev2) (hlen : seen.length < SEEN_TRADES_MAX) :
    processTrade cfg now gw excluded enum
        (processTrade cfg now gw excluded enum seen ev1).seen ev2 =
      ⟨(processTrade cfg now gw excluded enum seen ev1).seen, [],
        POutcome.dedupSkip, none⟩ ∧
    (tradeId ev1 ∉ seen →
      (processTrade cfg now gw excluded enum seen ev1).outcome ≠ POutcome.dedupSkip) := by
  have hmem : tradeId ev2 ∈ (processTrade cfg now gw excluded enum seen ev1).seen := by
    rw [← hkey]
    by_cases h1 : tradeId ev1 ∈ seen
    · rw [processTrade_mem_seen cfg now gw excluded enum seen ev1 h1]
      exact h1
    · rw [(processTrade_not_mem_seen cfg now gw excluded enum seen ev1 h1).1]
      unfold dedupMaintain
      rw [if_neg (by simp only [List.length_append, List.length_cons,
        List.length_nil]; omega)]
      exact List.mem_append.mpr (Or.inr (List.mem_singleton.mpr rfl))
  exact ⟨processTrade_mem_seen cfg now gw excluded enum _ ev2 hmem,
    fun h1 => (processTrade_not_mem_seen cfg now gw excluded enum seen ev1 h1).2⟩

theorem C1_dedup_witness :
    processTrade defaultConfig 0 gwEmpty [] (fun l => l)
        (processTrade defaultConfig 0 gwEmpty [] (fun l => l) [] evA).seen evA =
      ⟨(processTrade defaultConfig 0 gwEmpty [] (fun l => l) [] evA).seen, [],
        POutcome.dedupSkip, none⟩ ∧
    (tradeId evA ∉ ([] : List String) →
      (processTrade defaultConfig 0 gwEmpty [] (fun l => l) [] evA).outcome ≠
        POutcome.dedupSkip) :=
  C1_dedup_amended defaultConfig 0 gwEmpty [] (fun l => l) [] evA evA rfl
    (by norm_num [SEEN_TRADES_MAX])

/-- Claim C1 counterexample: the events `evA` and `evB` agree on the
(transaction identifier, market identifier) pair the claim derives the
DedupKey from, yet the second is not stopped at the dedup stage — it
reaches the small-trade fast filter, because the code keys on
(transaction hash, asset, timestamp) and the timestamps differ. -/
theorem C1_counterexample :
    specDedupKey evA = specDedupKey evB ∧
    (processTrade defaultConfig 0 gwEmpty [] (fun l => l)
        (processTrade defaultConfig 0 gwEmpty [] (fun l => l) [] evA).seen evB).outcome =
      POutcome.smallSkip := by
  have h0 : tradeId evA ∉ ([] : List String) := by simp
  have hs1 : (processTrade defaultConfig 0 gwEmpty [] (fun l => l) [] evA).seen =
      dedupMaintain (fun l => l) ([] ++ [tradeId evA]) :=
    (processTrade_not_mem_seen defaultConfig 0 gwEmpty [] (fun l => l) [] evA h0).1
  have hs2 : dedupMaintain (fun l => l) (([] : List String) ++ [tradeId evA]) =
      [tradeId evA] := by
    unfold dedupMaintain
    rw [if_neg (by simp [SEEN_TRADES_MAX])]
    simp
  have hne : tradeId evB ∉ [tradeId evA] := by
    simp only [List.mem_singleton]
    decide
  constructor
  · decide
  · rw [hs1, hs2]
    unfold processTrade
    simp only []
    rw [if_neg hne, if_pos (by norm_num [evB, evA, defaultConfig])]

/-- Claim C6 (amended): when the `seen_trades` cache exceeds its 100000
bound, `process_trade` keeps the tail of the set's enumeration and drops
the first 50000 entries — half survive (never a full clear) and every
survivor was in the cache — but the enumeration order of a Python set is
unspecified, so which half survives is arbitrary and the most recently
inserted key is not guaranteed to be retained. -/
theorem C6_evict_amended {α : Type} (enum : List α → List α) (seen : List α)
    (hperm : (enum seen).Perm seen) (hlen : SEEN_TRADES_MAX < seen.length) :
    (dedupMaintain enum seen).length = seen.length - SEEN_TRADES_EVICT ∧
    (∀ k, k ∈ dedupMaintain enum seen → k ∈ seen) := by
  unfold dedupMaintain
  rw [if_pos hlen]
  constructor
  · rw [List.length_drop, hperm.length_eq]
  · intro k hk
    exact hperm.mem_iff.mp (List.mem_of_mem_drop hk)

theorem C6_evict_witness :
    (dedupMaintain (fun l => l) (List.range 100001)).length =
      (List.range 100001).length - SEEN_TRADES_EVICT ∧
    (∀ k, k ∈ dedupMaintain (fun l => l) (List.range 100001) →
      k ∈ List.range 100001) :=
  C6_evict_amended (fun l => l) (List.range 100001) (List.Perm.refl _)
    (by simp [SEEN_TRADES_MAX])

/-- Claim C6 counterexample: with a 100001-entry cache whose set
enumeration happens to be a rotation (a permutation, as any Python set
order is), the eviction step drops the most recently inserted key 100000,
so the most recently inserted keys are not always retained. -/
theorem C6_counterexample :
    (List.range 100001).getLast? = some 100000 ∧
    ((List.range 100001).rotate 50001).Perm (List.range 100001) ∧
    100000 ∉ dedupMaintain (fun l => l.rotate 50001) (List.range 100001) := by
  refine ⟨?_, List.rotate_perm _ _, ?_⟩
  · rw [show (100001 : Nat) = Nat.succ 100000 from rfl, List.range_succ,
      List.getLast?_concat]
  · unfold dedupMaintain
    rw [if_pos (by simp [SEEN_TRADES_MAX])]
    simp only []
    rw [List.rotate_eq_drop_append_take (by simp)]
    rw [show SEEN_TRADES_EVICT = ((List.range 100001).drop 50001).length from by
      simp [SEEN_TRADES_EVICT]]
    rw [List.drop_left]
    rw [List.take_range]
    intro hmem
    rw [List.mem_range] at hmem
    omega
